import Mathlib

/-!
Verification of the per-player turn-resolution state machine of the
"Emergency!" emergency-department simulation.

The definitions below are a shallow embedding of the TypeScript source:
the pure helpers of `src/utils/gameUtils.ts`, the capability table of
`src/data/gameConstants.ts`, the turn-engine callbacks of the game context
(`processArrivals`, `movePatientToRoom`, `movePatientBackToQueue`,
`completeSequencing`, `applyRiskEventResults`, `processTreatment`,
`completeTurn`, `completeStaffing`), the replication-reconciler decision of
the player subscription callback, the readiness predicates of the
instructor monitor and of the player client auto-advance effect, and the
instructor monitor's rescue write for a player stuck in the treating phase.

Modelling conventions: patient and room ids are natural numbers standing
for the uuids of the source; fresh uuids drawn during arrival processing
are supplied as a base counter.  Money amounts are integers (the source
uses unscaled integer dollar amounts).  Room utilization, a quotient of two
counts in the source, is a rational number.  JavaScript `??` defaults on
the watermark fields disappear because the typed model makes every
watermark a total natural-number field, exactly as `initializePlayerGameState`
creates them.  Display-only fields of the source (positions excepted) and
components outside the turn engine are not modelled.
-/

namespace Emergency

/-- Patient acuity type, `'A' | 'B' | 'C'` in `types.ts`. -/
inductive PatientType where
  | A | B | C
  deriving DecidableEq, Repr

/-- Room capability tier, `'high' | 'medium' | 'low'` in `types.ts`. -/
inductive RoomType where
  | high | medium | low
  deriving DecidableEq, Repr

/-- Patient status field of `types.ts`. -/
inductive PStatus where
  | arriving | waiting | treating | treated | lwbs | cardiacArrest | turnedAway
  deriving DecidableEq, Repr

/-- `PlayerGameState.currentPhase` of `types.ts`. -/
inductive Phase where
  | arriving | sequencing | rolling | treating | review | waiting
  deriving DecidableEq, Repr

/-- Outcome tag of an applied risk event. -/
inductive RiskOutcomeKind where
  | cardiacArrest | lwbs
  deriving DecidableEq, Repr

/-- A record with one value per patient type, mirroring the
`{ A: ...; B: ...; C: ... }` objects of the source. -/
structure PerType (α : Type) where
  A : α
  B : α
  C : α
  deriving DecidableEq, Repr

/-- Lookup `v[t]` on a per-type record. -/
def PerType.get {α : Type} (v : PerType α) : PatientType → α
  | .A => v.A
  | .B => v.B
  | .C => v.C

/-- Update `v[t]` on a per-type record. -/
def PerType.modify {α : Type} (v : PerType α) (t : PatientType) (f : α → α) : PerType α :=
  match t with
  | .A => { v with A := f v.A }
  | .B => { v with B := f v.B }
  | .C => { v with C := f v.C }

/-- A record with one value per room tier, mirroring the
`{ high: ...; medium: ...; low: ... }` objects of the source. -/
structure PerTier (α : Type) where
  high : α
  medium : α
  low : α
  deriving DecidableEq, Repr

/-- Lookup on a per-tier record. -/
def PerTier.get {α : Type} (v : PerTier α) : RoomType → α
  | .high => v.high
  | .medium => v.medium
  | .low => v.low

/-- The `lwbs` counters of `PlayerStats` (only types B and C can LWBS). -/
structure LwbsCounts where
  B : Nat
  C : Nat
  deriving DecidableEq, Repr

/-- Game parameters (`GameParameters` in `types.ts`), restricted to the
fields the turn engine reads.  `dailyArrivals`, `hourlyWeights` and
`currencySymbol` drive only the pregame arrivals generator and display. -/
structure GameParameters where
  revenuePerPatient : PerType Int
  waitingCostPerHour : PerType Int
  riskEventRolls : PerType (List Nat)
  riskEventCost : PerType Int
  timeSensitiveWaitingHarms : Bool
  maxWaitingRoom : Nat
  maxStaffingBudget : Int
  roomCosts : PerTier Int
  treatmentTimes : PerType Nat
  deriving DecidableEq, Repr

/-- `HourlyArrivals` of `types.ts` (the `hour` tag is carried by the caller). -/
structure HourlyArrivals where
  A : Nat
  B : Nat
  C : Nat
  deriving DecidableEq, Repr

/-- `Patient` of `types.ts`. -/
structure Patient where
  id : Nat
  type : PatientType
  arrivedAt : Nat
  waitingTime : Nat
  treatmentProgress : Option Int := none
  roomId : Option Nat := none
  status : PStatus
  treatedInMismatchRoom : Bool := false
  deriving DecidableEq, Repr

/-- `Room` of `types.ts`. -/
structure Room where
  id : Nat
  type : RoomType
  position : Nat
  patient : Option Patient := none
  isOccupied : Bool
  deriving DecidableEq, Repr

/-- `PlayerStats` of `types.ts`. -/
structure PlayerStats where
  patientsTreated : PerType Nat
  cardiacArrests : Nat
  lwbs : LwbsCounts
  turnedAway : PerType Nat
  waitingCosts : Int
  riskEventCosts : Int
  hourlyUtilization : List ℚ
  hourlyQueueLength : List Nat
  hourlyDemand : PerType (List Nat)
  hourlyAvailableCapacity : PerType (List Nat)
  maxWaitingTime : PerType Nat
  mismatchTreatments : Nat
  totalTreatments : Nat
  deriving DecidableEq, Repr

/-- One entry of the `riskEvents` transient turn log. -/
structure RiskOutcome where
  patientId : Nat
  type : PatientType
  outcome : RiskOutcomeKind
  deriving DecidableEq, Repr

/-- One entry of the result list returned by `rollForRiskEvents`. -/
structure RiskResult where
  patientId : Nat
  roll : Nat
  isEvent : Bool
  type : PatientType
  deriving DecidableEq, Repr

/-- One entry of the `completed` transient turn log. -/
structure CompletedEntry where
  patientId : Nat
  type : PatientType
  deriving DecidableEq, Repr

/-- `TurnEvents` of `types.ts`. -/
structure TurnEvents where
  arrived : PerType Nat
  turnedAway : PerType Nat
  riskEvents : List RiskOutcome
  completed : List CompletedEntry
  waitingCosts : Int
  deriving DecidableEq, Repr

/-- `PlayerGameState` of `types.ts`: the replicated aggregate for one player. -/
structure PlayerGameState where
  rooms : List Room
  waitingRoom : List Patient
  completedPatients : List Patient
  totalRevenue : Int
  totalCost : Int
  staffingCost : Int
  staffingComplete : Bool
  currentPhase : Phase
  hourComplete : Bool
  lastCompletedHour : Nat
  lastArrivalsHour : Nat
  lastTreatmentHour : Nat
  lastSequencingHour : Nat
  stats : PlayerStats
  turnEvents : TurnEvents
  deriving DecidableEq, Repr

/-! ## Pure domain helpers (`gameUtils.ts`, `gameConstants.ts`) -/

/-- `ROOM_COMPATIBILITY` of `gameConstants.ts`: which patient types each room
tier can host. -/
def roomCompatibility : RoomType → List PatientType
  | .high => [.A, .B, .C]
  | .medium => [.B, .C]
  | .low => [.C]

/-- `canTreatInRoom` of `gameUtils.ts`. -/
def canTreatInRoom (patientType : PatientType) (roomType : RoomType) : Bool :=
  (roomCompatibility roomType).contains patientType

/-- The primary rooms table inside `isMismatchRoom`. -/
def primaryRoom : PatientType → RoomType
  | .A => .high
  | .B => .medium
  | .C => .low

/-- `isMismatchRoom` of `gameUtils.ts`. -/
def isMismatchRoom (patientType : PatientType) (roomType : RoomType) : Bool :=
  primaryRoom patientType != roomType

/-- `getTreatmentTime` of `gameUtils.ts`. -/
def getTreatmentTime (patientType : PatientType) (params : GameParameters) : Nat :=
  params.treatmentTimes.get patientType

/-- `createPatient` of `gameUtils.ts`, with the fresh uuid as an argument. -/
def createPatient (id : Nat) (ty : PatientType) (hour : Nat) : Patient :=
  { id := id, type := ty, arrivedAt := hour, waitingTime := 0, status := .arriving }

/-- `calculateUtilization` of `gameUtils.ts`: occupied rooms over total rooms,
zero for an empty inventory. -/
def calculateUtilization (rooms : List Room) : ℚ :=
  if rooms.length = 0 then 0
  else ((rooms.filter (·.isOccupied)).length : ℚ) / (rooms.length : ℚ)

/-- `initializePlayerStats` of `gameUtils.ts`. -/
def initPlayerStats : PlayerStats :=
  { patientsTreated := ⟨0, 0, 0⟩
    cardiacArrests := 0
    lwbs := ⟨0, 0⟩
    turnedAway := ⟨0, 0, 0⟩
    waitingCosts := 0
    riskEventCosts := 0
    hourlyUtilization := []
    hourlyQueueLength := []
    hourlyDemand := ⟨[], [], []⟩
    hourlyAvailableCapacity := ⟨[], [], []⟩
    maxWaitingTime := ⟨0, 0, 0⟩
    mismatchTreatments := 0
    totalTreatments := 0 }

/-- `initializePlayerGameState` of `gameUtils.ts`. -/
def initPlayerGameState : PlayerGameState :=
  { rooms := []
    waitingRoom := []
    completedPatients := []
    totalRevenue := 0
    totalCost := 0
    staffingCost := 0
    staffingComplete := false
    currentPhase := .arriving
    hourComplete := false
    lastCompletedHour := 0
    lastArrivalsHour := 0
    lastTreatmentHour := 0
    lastSequencingHour := 0
    stats := initPlayerStats
    turnEvents := { arrived := ⟨0, 0, 0⟩, turnedAway := ⟨0, 0, 0⟩, riskEvents := [],
                    completed := [], waitingCosts := 0 } }

/-! ## Turn engine operations (game context callbacks) -/

/-- `completeStaffing`: marks staffing complete, fixes
`totalCost = staffingCost`, marks the hour complete. -/
def completeStaffing (s : PlayerGameState) : PlayerGameState :=
  { s with staffingComplete := true, totalCost := s.staffingCost, hourComplete := true }

/-- `completeTurn`: unconditionally sets phase `waiting` and the
hour-complete flag. -/
def completeTurn (s : PlayerGameState) : PlayerGameState :=
  { s with currentPhase := .waiting, hourComplete := true }

/-- `completeSequencing`: no-op outside the sequencing phase; otherwise
transitions to `rolling` and records `lastSequencingHour := session.currentHour`
(the source falls back to `lastArrivalsHour` only when the session object is
absent; the model takes the session hour as an argument). -/
def completeSequencing (currentHour : Nat) (s : PlayerGameState) : PlayerGameState :=
  if s.currentPhase ≠ .sequencing then s
  else { s with currentPhase := .rolling, lastSequencingHour := currentHour }

/-- The updated patient built by `movePatientToRoom` on a successful
assignment: status `treating`, room reference set, treatment progress
initialized to the full treatment time, mismatch flag recorded. -/
def assignedPatient (params : GameParameters) (patient : Patient) (room : Room) : Patient :=
  { patient with
    status := .treating
    roomId := some room.id
    treatmentProgress := some ((getTreatmentTime patient.type params : Int))
    treatedInMismatchRoom := isMismatchRoom patient.type room.type }

/-- `movePatientToRoom`: during sequencing, place a waiting patient into an
existing unoccupied compatible room; every failing validation is a silent
no-op. -/
def movePatientToRoom (params : GameParameters) (patientId roomId : Nat)
    (s : PlayerGameState) : PlayerGameState :=
  if s.currentPhase ≠ .sequencing then s
  else
    match s.waitingRoom.find? (fun p => p.id = patientId),
          s.rooms.find? (fun r => r.id = roomId) with
    | some patient, some room =>
      if room.isOccupied then s
      else if ¬ canTreatInRoom patient.type room.type then s
      else
        let updatedPatient := assignedPatient params patient room
        { s with
          rooms := s.rooms.map (fun r =>
            if r.id = roomId then { r with isOccupied := true, patient := some updatedPatient }
            else r)
          waitingRoom := s.waitingRoom.filter (fun p => ¬ p.id = patientId) }
    | _, _ => s

/-- `movePatientBackToQueue`: during sequencing, return a just-assigned
patient (full, untouched treatment progress) to the waiting queue. -/
def movePatientBackToQueue (params : GameParameters) (patientId : Nat)
    (s : PlayerGameState) : PlayerGameState :=
  if s.currentPhase ≠ .sequencing then s
  else
    match s.rooms.find? (fun r =>
        match r.patient with
        | some p => p.id = patientId
        | none => false) with
    | none => s
    | some room =>
      match room.patient with
      | none => s
      | some rp =>
        let treatmentTime := getTreatmentTime rp.type params
        if rp.treatmentProgress ≠ some (treatmentTime : Int) then s
        else
          let patient : Patient :=
            { rp with status := .waiting, roomId := none, treatmentProgress := none }
          { s with
            rooms := s.rooms.map (fun r =>
              if r.id = room.id then { r with isOccupied := false, patient := none }
              else r)
            waitingRoom := s.waitingRoom ++ [patient] }

/-! ### processArrivals -/

/-- The patients created for one hour, per type in declaration order A, B, C,
with sequential fresh ids starting at `baseId`. -/
def mkPatientsOfType (ty : PatientType) (hour : Nat) (n : Nat) (baseId : Nat) : List Patient :=
  (List.range n).map (fun i => createPatient (baseId + i) ty hour)

/-- All patients created by `processArrivals` before sorting. -/
def mkPatients (hour baseId : Nat) (arr : HourlyArrivals) : List Patient :=
  mkPatientsOfType .A hour arr.A baseId ++
  mkPatientsOfType .B hour arr.B (baseId + arr.A) ++
  mkPatientsOfType .C hour arr.C (baseId + arr.A + arr.B)

/-- Priority used for the arrival sort: A before B before C. -/
def typePriority : PatientType → Nat
  | .A => 0
  | .B => 1
  | .C => 2

/-- Stable insertion of one patient into a priority-sorted list, placing it
after every earlier element of equal or smaller priority (the behaviour of
the stable JavaScript `Array.sort` comparator). -/
def insertByPriority (p : Patient) : List Patient → List Patient
  | [] => [p]
  | q :: qs =>
    if typePriority q.type ≤ typePriority p.type then q :: insertByPriority p qs
    else p :: q :: qs

/-- Stable sort of the arriving patients by priority. -/
def sortByPriority : List Patient → List Patient
  | [] => []
  | p :: ps => insertByPriority p (sortByPriority ps)

/-- Accumulator of the admission loop of `processArrivals`. -/
structure AdmitAcc where
  queue : List Patient
  turnedAway : List Patient
  stats : PlayerStats
  deriving DecidableEq, Repr

/-- One step of the admission loop: admit into the queue while below
capacity, otherwise turn the patient away, counting it and accruing its
type's risk-event cost immediately. -/
def admitOne (params : GameParameters) (acc : AdmitAcc) (p : Patient) : AdmitAcc :=
  if acc.queue.length < params.maxWaitingRoom then
    { acc with queue := acc.queue ++ [{ p with status := .waiting }] }
  else
    { queue := acc.queue
      turnedAway := acc.turnedAway ++ [{ p with status := .turnedAway }]
      stats := { acc.stats with
        turnedAway := acc.stats.turnedAway.modify p.type (· + 1)
        riskEventCosts := acc.stats.riskEventCosts + params.riskEventCost.get p.type } }

/-- The whole admission loop. -/
def admitAll (params : GameParameters) (ps : List Patient) (acc : AdmitAcc) : AdmitAcc :=
  ps.foldl (admitOne params) acc

/-- Per-type counts of a patient list (the `turnedAwayCounts` tallies). -/
def countsByType (ps : List Patient) : PerType Nat :=
  ⟨(ps.filter (fun p => p.type = .A)).length,
   (ps.filter (fun p => p.type = .B)).length,
   (ps.filter (fun p => p.type = .C)).length⟩

/-- The demand/available-capacity snapshot pushed by `processArrivals` before
admission. -/
def snapshotStats (s : PlayerGameState) (arr : HourlyArrivals) : PlayerStats :=
  { s.stats with
    hourlyDemand :=
      ⟨s.stats.hourlyDemand.A ++ [(s.waitingRoom.filter (fun p => p.type = .A)).length + arr.A],
       s.stats.hourlyDemand.B ++ [(s.waitingRoom.filter (fun p => p.type = .B)).length + arr.B],
       s.stats.hourlyDemand.C ++ [(s.waitingRoom.filter (fun p => p.type = .C)).length + arr.C]⟩
    hourlyAvailableCapacity :=
      ⟨s.stats.hourlyAvailableCapacity.A ++
         [(s.rooms.filter (fun r => r.type = .high ∧ ¬ r.isOccupied)).length],
       s.stats.hourlyAvailableCapacity.B ++
         [(s.rooms.filter (fun r => r.type = .medium ∧ ¬ r.isOccupied)).length],
       s.stats.hourlyAvailableCapacity.C ++
         [(s.rooms.filter (fun r => r.type = .low ∧ ¬ r.isOccupied)).length]⟩ }

/-- The admission pass of `processArrivals`: the sorted fresh patients run
through the admission loop starting from the current queue and the
demand/capacity snapshot stats. -/
def arrivalsAdmission (params : GameParameters) (currentHour baseId : Nat)
    (arr : HourlyArrivals) (s : PlayerGameState) : AdmitAcc :=
  admitAll params (sortByPriority (mkPatients currentHour baseId arr))
    ⟨s.waitingRoom, [], snapshotStats s arr⟩

/-- `processArrivals`: guarded by the arrivals watermark and the mid-flight
phases, creates and priority-sorts the hour's patients, records the demand
and capacity snapshots, runs the admission loop, accrues the turn-away
costs into `totalCost`, and transitions to sequencing. -/
def processArrivals (params : GameParameters) (currentHour baseId : Nat)
    (arr : HourlyArrivals) (s : PlayerGameState) : PlayerGameState :=
  if currentHour ≤ s.lastArrivalsHour then s
  else if s.currentPhase = .rolling ∨ s.currentPhase = .treating then s
  else
    let res := arrivalsAdmission params currentHour baseId arr s
    { s with
      waitingRoom := res.queue
      totalCost := s.totalCost + res.stats.riskEventCosts - s.stats.riskEventCosts
      stats := res.stats
      currentPhase := .sequencing
      hourComplete := false
      lastArrivalsHour := currentHour
      turnEvents :=
        { arrived := ⟨arr.A, arr.B, arr.C⟩
          turnedAway := countsByType res.turnedAway
          riskEvents := []
          completed := []
          waitingCosts := 0 } }

/-! ### Risk rolling and application -/

/-- `expandRiskRolls` inside `rollForRiskEvents`: widen each base trigger
value `v` to `v, v-1, …, v-waitingTime`, discarding values below 1.  The
source collects the values into a `Set`; only membership matters, so the
model keeps the generated list. -/
def expandRiskRolls (baseRolls : List Nat) (waitingTime : Nat) : List Nat :=
  baseRolls.foldl
    (fun acc v =>
      acc ++ ((List.range (waitingTime + 1)).filterMap (fun i =>
        if 1 ≤ v - i then some (v - i) else none)))
    []

/-- The trigger set `rollForRiskEvents` tests a given waiting patient's roll
against: the configured base set, widened by waiting time when the
time-sensitive-harms toggle is on. -/
def riskRollsFor (params : GameParameters) (p : Patient) : List Nat :=
  if params.timeSensitiveWaitingHarms then
    expandRiskRolls (params.riskEventRolls.get p.type) p.waitingTime
  else params.riskEventRolls.get p.type

/-- The per-patient risk predicate of `rollForRiskEvents`: the roll is a risk
event iff it belongs to the patient's (possibly widened) trigger set. -/
def isRiskEventRoll (params : GameParameters) (p : Patient) (roll : Nat) : Bool :=
  (riskRollsFor params p).contains roll

/-- `rollForRiskEvents` on a pre-drawn supply of d20 rolls (`draw i` is the
i-th draw): one result per waiting patient, in queue order, no state
mutation. -/
def rollResults (params : GameParameters) (draw : Nat → Nat) :
    List Patient → Nat → List RiskResult
  | [], _ => []
  | p :: ps, i =>
    { patientId := p.id, roll := draw i, isEvent := isRiskEventRoll params p (draw i),
      type := p.type } :: rollResults params draw ps (i + 1)

/-- `rollForRiskEvents` over the current waiting queue. -/
def rollForRiskEvents (params : GameParameters) (draw : Nat → Nat)
    (s : PlayerGameState) : List RiskResult :=
  rollResults params draw s.waitingRoom 0

/-- Outcome classification of `applyRiskEventResults`: type A is a cardiac
arrest, types B and C leave without being seen. -/
def outcomeFor : PatientType → RiskOutcomeKind
  | .A => .cardiacArrest
  | _ => .lwbs

/-- Accumulator of the risk-application loop. -/
structure RiskAcc where
  waitingRoom : List Patient
  stats : PlayerStats
  additionalCosts : Int
  events : List RiskOutcome
  deriving DecidableEq, Repr

/-- The outcome-counting stats update of the risk-application loop: type A
counts a cardiac arrest, types B and C count an LWBS. -/
def riskStatsUpdate (stats : PlayerStats) : PatientType → PlayerStats
  | .A => { stats with cardiacArrests := stats.cardiacArrests + 1 }
  | .B => { stats with lwbs := { stats.lwbs with B := stats.lwbs.B + 1 } }
  | .C => { stats with lwbs := { stats.lwbs with C := stats.lwbs.C + 1 } }

/-- The removal of one flagged patient: count the outcome, accrue the type's
risk-event cost (stats and running tally), drop the patient from the queue,
log the outcome record. -/
def riskRemove (params : GameParameters) (acc : RiskAcc) (res : RiskResult)
    (patient : Patient) : RiskAcc :=
  { waitingRoom := acc.waitingRoom.filter (fun p => ¬ p.id = res.patientId)
    stats := { riskStatsUpdate acc.stats patient.type with
      riskEventCosts := (riskStatsUpdate acc.stats patient.type).riskEventCosts
        + params.riskEventCost.get patient.type }
    additionalCosts := acc.additionalCosts + params.riskEventCost.get patient.type
    events := acc.events ++ [{ patientId := res.patientId, type := patient.type,
                               outcome := outcomeFor patient.type }] }

/-- One step of the risk-application loop: for a flagged result whose patient
is still in the queue, count the outcome, accrue the type's risk-event cost,
and remove the patient. -/
def applyOneRisk (params : GameParameters) (acc : RiskAcc) (res : RiskResult) : RiskAcc :=
  if res.isEvent then
    match acc.waitingRoom.find? (fun p => p.id = res.patientId) with
    | none => acc
    | some patient => riskRemove params acc res patient
  else acc

/-- The max-waiting-time statistic update loop of `applyRiskEventResults`. -/
def updateMaxWaiting (stats : PlayerStats) (ps : List Patient) : PlayerStats :=
  ps.foldl
    (fun st p =>
      if st.maxWaitingTime.get p.type < p.waitingTime then
        { st with maxWaitingTime := st.maxWaitingTime.modify p.type (fun _ => p.waitingTime) }
      else st)
    stats

/-- The hour's aggregate waiting cost over the remaining queue. -/
def hourlyWaitingCostOf (params : GameParameters) (ps : List Patient) : Int :=
  ps.foldl (fun sum p => sum + params.waitingCostPerHour.get p.type) 0

/-- The removal pass of `applyRiskEventResults` over the rolled results. -/
def riskPass (params : GameParameters) (results : List RiskResult)
    (s : PlayerGameState) : RiskAcc :=
  results.foldl (applyOneRisk params) ⟨s.waitingRoom, s.stats, 0, []⟩

/-- The surviving queue after risk application, each patient's waiting time
incremented by one hour. -/
def agedQueue (params : GameParameters) (results : List RiskResult)
    (s : PlayerGameState) : List Patient :=
  (riskPass params results s).waitingRoom.map
    (fun p => { p with waitingTime := p.waitingTime + 1 })

/-- `applyRiskEventResults`: applies previously rolled results (removals,
counts, costs), increments every remaining patient's waiting time, accrues
the hour's waiting cost, raises the sequencing watermark to at least the
current hour, and transitions to treating. -/
def applyRiskEventResults (params : GameParameters) (currentHour : Nat)
    (results : List RiskResult) (s : PlayerGameState) : PlayerGameState :=
  let acc := riskPass params results s
  let newWaitingRoom := agedQueue params results s
  let hourlyWaitingCost := hourlyWaitingCostOf params newWaitingRoom
  let stats2 := { acc.stats with waitingCosts := acc.stats.waitingCosts + hourlyWaitingCost }
  let stats3 := updateMaxWaiting stats2 newWaitingRoom
  { s with
    waitingRoom := newWaitingRoom
    totalCost := s.totalCost + acc.additionalCosts + hourlyWaitingCost
    stats := stats3
    currentPhase := .treating
    lastSequencingHour := max s.lastSequencingHour currentHour
    turnEvents := { s.turnEvents with
                    riskEvents := acc.events
                    waitingCosts := hourlyWaitingCost } }

/-! ### processTreatment -/

/-- Accumulator of the per-room treatment loop. -/
structure TreatAcc where
  rooms : List Room
  completedPatients : List Patient
  completedList : List CompletedEntry
  stats : PlayerStats
  additionalRevenue : Int
  deriving DecidableEq, Repr

/-- One step of the treatment loop: tick the occupant's progress down by one;
on reaching zero discharge the patient (status `treated`, room freed,
counters and revenue updated). -/
def treatRoom (params : GameParameters) (acc : TreatAcc) (room : Room) : TreatAcc :=
  match room.patient with
  | none =>
    let r := if room.isOccupied then { room with isOccupied := false } else room
    { acc with rooms := acc.rooms ++ [r] }
  | some patient =>
    let currentProgress :=
      patient.treatmentProgress.getD ((getTreatmentTime patient.type params : Int))
    let newProgress := currentProgress - 1
    if newProgress ≤ 0 then
      let completedPatient : Patient :=
        { patient with status := .treated, treatmentProgress := some 0, roomId := none }
      { rooms := acc.rooms ++ [{ room with isOccupied := false, patient := none }]
        completedPatients := acc.completedPatients ++ [completedPatient]
        completedList := acc.completedList ++ [{ patientId := patient.id, type := patient.type }]
        stats := { acc.stats with
          patientsTreated := acc.stats.patientsTreated.modify patient.type (· + 1)
          totalTreatments := acc.stats.totalTreatments + 1
          mismatchTreatments :=
            if patient.treatedInMismatchRoom then acc.stats.mismatchTreatments + 1
            else acc.stats.mismatchTreatments }
        additionalRevenue := acc.additionalRevenue + params.revenuePerPatient.get patient.type }
    else
      let r2 : Room :=
        { room with isOccupied := true,
                    patient := some { patient with treatmentProgress := some newProgress } }
      { acc with rooms := acc.rooms ++ [r2] }

/-- The consistency fixup of `processTreatment`: force phase `waiting`, hour
complete, and the completed watermark to the treatment hour (the arrivals
watermark). -/
def treatmentFixState (s : PlayerGameState) : PlayerGameState :=
  { s with currentPhase := .waiting, hourComplete := true,
           lastCompletedHour := s.lastArrivalsHour }

/-- The per-room treatment pass over the room inventory. -/
def treatmentPass (params : GameParameters) (s : PlayerGameState) : TreatAcc :=
  s.rooms.foldl (treatRoom params) ⟨[], s.completedPatients, [], s.stats, 0⟩

/-- The first-time-processing branch of `processTreatment`. -/
def processTreatmentMain (params : GameParameters)
    (riskEventsOverride : Option (List RiskOutcome)) (s : PlayerGameState) : PlayerGameState :=
  let acc := treatmentPass params s
  let stats2 := { acc.stats with
    hourlyUtilization := acc.stats.hourlyUtilization ++ [calculateUtilization acc.rooms]
    hourlyQueueLength := acc.stats.hourlyQueueLength ++ [s.waitingRoom.length] }
  { s with
    rooms := acc.rooms
    completedPatients := acc.completedPatients
    totalRevenue := s.totalRevenue + acc.additionalRevenue
    stats := stats2
    currentPhase := .review
    hourComplete := false
    lastCompletedHour := s.lastArrivalsHour
    lastTreatmentHour := s.lastArrivalsHour
    turnEvents := { s.turnEvents with
      riskEvents := riskEventsOverride.getD s.turnEvents.riskEvents
      completed := acc.completedList } }

/-- `processTreatment`: keyed to the arrivals watermark.  When the treatment
watermark already covers that hour the call degenerates to a consistency
fixup (force phase `waiting`, hour complete, completed watermark); otherwise
it ticks every room, discharges finished patients, records the hour's
utilization and queue length, advances both watermarks and lands in
`review` with the hour-complete flag cleared. -/
def processTreatment (params : GameParameters)
    (riskEventsOverride : Option (List RiskOutcome)) (s : PlayerGameState) : PlayerGameState :=
  if s.lastArrivalsHour ≤ s.lastTreatmentHour then
    if s.currentPhase ≠ .waiting ∨ s.hourComplete = false then treatmentFixState s
    else s
  else processTreatmentMain params riskEventsOverride s

/-! ## Replication reconciler (player subscription callback) -/

/-- The canonical phase order used by the reconciler (`phaseOrder` record
in the subscription callback; every phase is present, so the `?? 0`
fallback never fires). -/
def phaseOrderVal : Phase → Nat
  | .waiting => 0
  | .arriving => 1
  | .sequencing => 2
  | .rolling => 3
  | .treating => 4
  | .review => 5

/-- The accept/reject decision of the player subscription callback:
`lockActive` models `Date.now() < localUpdateLockUntilRef.current`, and
`processedRef` models `processedArrivalsHourRef.current`.  Returns the
state the client keeps. -/
def reconcileDecision (processedRef : Nat) (prev incoming : PlayerGameState) :
    PlayerGameState :=
  if incoming.lastArrivalsHour < processedRef then prev
  else if incoming.lastArrivalsHour < prev.lastArrivalsHour then prev
  else if incoming.lastArrivalsHour = prev.lastArrivalsHour ∧
          phaseOrderVal incoming.currentPhase < phaseOrderVal prev.currentPhase then prev
  else incoming

/-- The full callback decision, including the time-window lock. -/
def reconcileGameState (lockActive : Bool) (processedRef : Nat)
    (prev incoming : PlayerGameState) : PlayerGameState :=
  if lockActive then prev
  else reconcileDecision processedRef prev incoming

/-! ## Readiness predicates and rescue paths -/

/-- Per-player readiness test of the instructor monitor's `allPlayersReady`
(sequencing branch): phase `waiting`, hour complete, and all four
watermarks at or beyond the session hour. -/
def monitorPlayerReady (currentHour : Nat) (gs : PlayerGameState) : Bool :=
  decide (gs.currentPhase = .waiting) && gs.hourComplete &&
  decide (currentHour ≤ gs.lastCompletedHour) &&
  decide (currentHour ≤ gs.lastArrivalsHour) &&
  decide (currentHour ≤ gs.lastTreatmentHour) &&
  decide (currentHour ≤ gs.lastSequencingHour)

/-- The instructor monitor's `allPlayersReady` over the player list
(false for an empty session). -/
def monitorAllReady (currentHour : Nat) (players : List PlayerGameState) : Bool :=
  !players.isEmpty && players.all (monitorPlayerReady currentHour)

/-- Per-player readiness test of the player client's auto-advance effect
(`allReady` in the game context): phase `waiting`, hour complete, and the
completion, arrivals and treatment watermarks at or beyond the session
hour — the sequencing watermark is not consulted. -/
def clientPlayerReady (currentHour : Nat) (gs : PlayerGameState) : Bool :=
  decide (gs.currentPhase = .waiting) && gs.hourComplete &&
  decide (currentHour ≤ gs.lastCompletedHour) &&
  decide (currentHour ≤ gs.lastArrivalsHour) &&
  decide (currentHour ≤ gs.lastTreatmentHour)

/-- The player client's `allReady` over the player list. -/
def clientAllReady (currentHour : Nat) (players : List PlayerGameState) : Bool :=
  players.all (clientPlayerReady currentHour)

/-- The guard of the monitor's treating-phase rescue branch: stuck in
`treating`, treatment watermark behind the session hour, and no room with
an occupant whose remaining progress is positive. -/
def treatingStuckGuard (sessionHour : Nat) (gs : PlayerGameState) : Bool :=
  decide (gs.currentPhase = .treating) &&
  decide (gs.lastTreatmentHour < sessionHour) &&
  !(gs.rooms.any (fun r =>
    r.isOccupied &&
    match r.patient with
    | some p => decide (0 < p.treatmentProgress.getD 0)
    | none => false))

/-- The monitor's treating-phase rescue write: the partial-field update
`{ currentPhase: waiting, hourComplete: true, lastCompletedHour: h,
lastTreatmentHour: h }` applied to the player's replicated state. -/
def rescueTreatingStuck (sessionHour : Nat) (gs : PlayerGameState) : PlayerGameState :=
  { gs with currentPhase := .waiting, hourComplete := true,
            lastCompletedHour := sessionHour, lastTreatmentHour := sessionHour }

/-- The GameBoard rolling-failsafe advancement: it calls `processTreatment`
with no override argument. -/
def rollingFailsafeAdvance (params : GameParameters) (s : PlayerGameState) : PlayerGameState :=
  processTreatment params none s

/-! ## Operation sequences (for the conservation invariant) -/

/-- One hourly turn-engine operation (the operations available once
staffing has completed). -/
inductive GameOp where
  | arrivals (hour baseId : Nat) (arr : HourlyArrivals)
  | moveToRoom (patientId roomId : Nat)
  | moveBack (patientId : Nat)
  | submitSequencing (hour : Nat)
  | applyRisk (hour : Nat) (results : List RiskResult)
  | treat (riskEventsOverride : Option (List RiskOutcome))
  | finishTurn

/-- Dispatch of one operation to the corresponding turn-engine callback. -/
def applyOp (params : GameParameters) (s : PlayerGameState) : GameOp → PlayerGameState
  | .arrivals hour baseId arr => processArrivals params hour baseId arr s
  | .moveToRoom patientId roomId => movePatientToRoom params patientId roomId s
  | .moveBack patientId => movePatientBackToQueue params patientId s
  | .submitSequencing hour => completeSequencing hour s
  | .applyRisk hour results => applyRiskEventResults params hour results s
  | .treat riskEventsOverride => processTreatment params riskEventsOverride s
  | .finishTurn => completeTurn s

/-- Run a sequence of hourly operations. -/
def runOps (params : GameParameters) (s : PlayerGameState) (ops : List GameOp) :
    PlayerGameState :=
  ops.foldl (applyOp params) s

/-- Revenue attributable to a list of patients at the configured per-type
rates. -/
def revenueOf (params : GameParameters) (ps : List Patient) : Int :=
  ps.foldl (fun t p => t + params.revenuePerPatient.get p.type) 0

/-- Risk-event cost attributable to a list of patients at the configured
per-type rates. -/
def riskCostOf (params : GameParameters) (ps : List Patient) : Int :=
  ps.foldl (fun t p => t + params.riskEventCost.get p.type) 0

/-- The conservation invariant: staffing stays complete, total revenue is
exactly the revenue of the ever-treated ledger (`completedPatients`, all of
whose members carry status `treated`), and total cost is exactly the
staffing cost plus the accrued risk-event and waiting cost accumulators. -/
def Conserving (params : GameParameters) (s : PlayerGameState) : Prop :=
  s.staffingComplete = true ∧
  s.totalRevenue = revenueOf params s.completedPatients ∧
  (s.completedPatients.all fun p => decide (p.status = .treated)) = true ∧
  s.totalCost = s.staffingCost + s.stats.riskEventCosts + s.stats.waitingCosts

/-! ## Concrete fixtures (DEFAULT_PARAMETERS and small states) -/

/-- `DEFAULT_PARAMETERS` of `gameConstants.ts` (the constant omits the
time-sensitive toggle, which the engine then reads as off). -/
def defaultParams : GameParameters :=
  { revenuePerPatient := ⟨2000, 1200, 500⟩
    waitingCostPerHour := ⟨250, 100, 25⟩
    riskEventRolls := ⟨[19, 20], [20], [18, 19, 20]⟩
    riskEventCost := ⟨10000, 300, 200⟩
    timeSensitiveWaitingHarms := false
    maxWaitingRoom := 15
    maxStaffingBudget := 42000
    roomCosts := ⟨3900, 3000, 1600⟩
    treatmentTimes := ⟨4, 3, 2⟩ }

/-- Default parameters with the time-sensitive-waiting-harms toggle on. -/
def timeSensitiveParams : GameParameters :=
  { defaultParams with timeSensitiveWaitingHarms := true }

/-- Default parameters with waiting-room capacity 2 (spec scenario). -/
def capTwoParams : GameParameters :=
  { defaultParams with maxWaitingRoom := 2 }

/-- A type-B patient who has waited two hours (risk-widening scenario). -/
def patientWaitedTwo : Patient :=
  { id := 7, type := .B, arrivedAt := 1, waitingTime := 2, status := .waiting }

/-- A waiting type-A patient used in the room-assignment scenario. -/
def patientA1 : Patient :=
  { id := 1, type := .A, arrivedAt := 1, waitingTime := 0, status := .waiting }

/-- An unoccupied medium room used in the room-assignment scenario. -/
def roomMed2 : Room :=
  { id := 2, type := .medium, position := 0, isOccupied := false }

/-- An unoccupied high room used in the room-assignment scenario. -/
def roomHigh3 : Room :=
  { id := 3, type := .high, position := 1, isOccupied := false }

/-- A sequencing-phase state with one waiting type-A patient and one medium
and one high room. -/
def seqState : PlayerGameState :=
  { initPlayerGameState with
    currentPhase := .sequencing
    waitingRoom := [patientA1]
    rooms := [roomMed2, roomHigh3] }

/-- A state whose treatment watermark covers its arrivals hour but whose
phase has drifted (mid-`rolling`). -/
def stDrift : PlayerGameState :=
  { initPlayerGameState with
    currentPhase := .rolling
    lastArrivalsHour := 5
    lastTreatmentHour := 5
    lastCompletedHour := 5 }

/-- A covered-watermark state already in `waiting`/hour-complete whose
`lastCompletedHour` is stale. -/
def stStale : PlayerGameState :=
  { initPlayerGameState with
    currentPhase := .waiting
    hourComplete := true
    lastArrivalsHour := 5
    lastTreatmentHour := 5
    lastCompletedHour := 9 }

/-- A treating-phase state about to process treatment for hour 1. -/
def stPreTreat : PlayerGameState :=
  { initPlayerGameState with
    currentPhase := .treating
    lastArrivalsHour := 1
    lastTreatmentHour := 0 }

/-- A player state ready under all four watermarks for hour 5. -/
def gsFull : PlayerGameState :=
  { initPlayerGameState with
    currentPhase := .waiting
    hourComplete := true
    lastCompletedHour := 5
    lastArrivalsHour := 5
    lastTreatmentHour := 5
    lastSequencingHour := 5 }

/-- A player state ready for hour 5 on three watermarks but with a stale
sequencing watermark. -/
def gsNoSeq : PlayerGameState :=
  { initPlayerGameState with
    currentPhase := .waiting
    hourComplete := true
    lastCompletedHour := 5
    lastArrivalsHour := 5
    lastTreatmentHour := 5
    lastSequencingHour := 0 }

/-- A local state at arrivals watermark 5 in the sequencing phase. -/
def prevLocal : PlayerGameState :=
  { initPlayerGameState with currentPhase := .sequencing, lastArrivalsHour := 5 }

/-- An incoming snapshot at arrivals watermark 5 in the waiting phase. -/
def incomingFiveWaiting : PlayerGameState :=
  { initPlayerGameState with currentPhase := .waiting, lastArrivalsHour := 5 }

/-- An incoming snapshot at arrivals watermark 6 in the waiting phase. -/
def incomingSix : PlayerGameState :=
  { initPlayerGameState with currentPhase := .waiting, lastArrivalsHour := 6 }

/-- A sequencing-phase state whose sequencing watermark (5) is ahead of the
session hour used in the scenario (3). -/
def sSeqFive : PlayerGameState :=
  { initPlayerGameState with currentPhase := .sequencing, lastSequencingHour := 5 }

/-- A player stuck in `treating` for hour 1 with no occupied rooms. -/
def gsStuck : PlayerGameState :=
  { initPlayerGameState with
    currentPhase := .treating
    lastArrivalsHour := 1
    lastTreatmentHour := 0 }

/-! ## Claim theorems -/

/-- C1 (counterexample): the repeated `processTreatment` call does not always
force `lastCompletedHour` to the arrivals hour — on a covered-watermark state
already in `waiting` with the hour-complete flag set, the call returns the
state unchanged, stale `lastCompletedHour` included. -/
theorem processTreatment_fixup_stale_lastCompletedHour :
    stStale.lastArrivalsHour ≤ stStale.lastTreatmentHour ∧
    (processTreatment defaultParams none stStale).lastCompletedHour ≠
      stStale.lastArrivalsHour := by
  decide

/-- C1 (amended): on any state whose treatment watermark meets or exceeds the
arrivals-watermark hour, `processTreatment` performs no reprocessing: the
result is in phase `waiting` with the hour-complete flag set, and revenue,
cost, rooms, waiting queue and statistics are unchanged; moreover it either
forces `lastCompletedHour` to the arrivals hour (the fixup) or returns the
state entirely unchanged (when it is already waiting and hour-complete). -/
theorem processTreatment_repeat_idempotent (params : GameParameters)
    (ov : Option (List RiskOutcome)) (s : PlayerGameState)
    (h : s.lastArrivalsHour ≤ s.lastTreatmentHour) :
    (processTreatment params ov s).currentPhase = Phase.waiting ∧
    (processTreatment params ov s).hourComplete = true ∧
    (processTreatment params ov s).totalRevenue = s.totalRevenue ∧
    (processTreatment params ov s).totalCost = s.totalCost ∧
    (processTreatment params ov s).rooms = s.rooms ∧
    (processTreatment params ov s).waitingRoom = s.waitingRoom ∧
    (processTreatment params ov s).stats = s.stats ∧
    ((processTreatment params ov s).lastCompletedHour = s.lastArrivalsHour ∨
      processTreatment params ov s = s) := by
  unfold processTreatment
  rw [if_pos h]
  by_cases hc : s.currentPhase ≠ Phase.waiting ∨ s.hourComplete = false
  · rw [if_pos hc]
    exact ⟨rfl, rfl, rfl, rfl, rfl, rfl, rfl, Or.inl rfl⟩
  · rw [if_neg hc]
    rcases not_or.mp hc with ⟨h1, h2⟩
    refine ⟨not_not.mp h1, ?_, rfl, rfl, rfl, rfl, rfl, Or.inr rfl⟩
    cases hb : s.hourComplete
    · exact absurd hb h2
    · rfl

/-- C1 (witness): the amended theorem applied to a drifted covered-watermark
state. -/
theorem processTreatment_repeat_idempotent_witness :
    (processTreatment defaultParams none stDrift).currentPhase = Phase.waiting ∧
    (processTreatment defaultParams none stDrift).hourComplete = true ∧
    (processTreatment defaultParams none stDrift).totalRevenue = stDrift.totalRevenue ∧
    (processTreatment defaultParams none stDrift).totalCost = stDrift.totalCost ∧
    (processTreatment defaultParams none stDrift).rooms = stDrift.rooms ∧
    (processTreatment defaultParams none stDrift).waitingRoom = stDrift.waitingRoom ∧
    (processTreatment defaultParams none stDrift).stats = stDrift.stats ∧
    ((processTreatment defaultParams none stDrift).lastCompletedHour =
        stDrift.lastArrivalsHour ∨
      processTreatment defaultParams none stDrift = stDrift) :=
  processTreatment_repeat_idempotent defaultParams none stDrift (by decide)

/-- C9 (counterexample): `completeSequencing` does not take a maximum — on a
sequencing-phase state whose sequencing watermark (5) exceeds the session
hour (3) it lowers the watermark to 3. -/
theorem completeSequencing_not_max :
    sSeqFive.currentPhase = Phase.sequencing ∧
    (completeSequencing 3 sSeqFive).lastSequencingHour ≠
      max sSeqFive.lastSequencingHour 3 := by
  decide

/-- C9 (amended): in the sequencing phase, `completeSequencing` sets the
sequencing watermark to the session's current hour (which may decrease a
larger previous value — the max with the previous value happens only later
in `applyRiskEventResults`) and transitions to `rolling`; in any other phase
it is a no-op. -/
theorem completeSequencing_spec (hour : Nat) (s : PlayerGameState) :
    (s.currentPhase = Phase.sequencing →
      completeSequencing hour s =
        { s with currentPhase := Phase.rolling, lastSequencingHour := hour }) ∧
    (s.currentPhase ≠ Phase.sequencing → completeSequencing hour s = s) := by
  constructor
  · intro hp
    unfold completeSequencing
    rw [if_neg (not_not.mpr hp)]
  · intro hp
    unfold completeSequencing
    rw [if_pos hp]

/-- C9 (witness): the amended theorem applied to the sequencing-phase state
with watermark 5 at session hour 3. -/
theorem completeSequencing_spec_witness :
    completeSequencing 3 sSeqFive =
      { sSeqFive with currentPhase := Phase.rolling, lastSequencingHour := 3 } :=
  (completeSequencing_spec 3 sSeqFive).1 (by decide)

/-- C10: on a state whose treatment watermark is strictly behind its
arrivals-watermark hour, the first `processTreatment` call lands in phase
`review` with the hour-complete flag cleared while advancing both the
completed and treatment watermarks to the arrivals hour; the player is not
ready under either advancement predicate until `completeTurn` or a repeated
`processTreatment` call flips the state to `waiting`/hour-complete. -/
theorem processTreatment_first_time_spec (params : GameParameters)
    (ov : Option (List RiskOutcome)) (s : PlayerGameState)
    (h : s.lastTreatmentHour < s.lastArrivalsHour) :
    (processTreatment params ov s).currentPhase = Phase.review ∧
    (processTreatment params ov s).hourComplete = false ∧
    (processTreatment params ov s).lastCompletedHour = s.lastArrivalsHour ∧
    (processTreatment params ov s).lastTreatmentHour = s.lastArrivalsHour ∧
    (completeTurn (processTreatment params ov s)).currentPhase = Phase.waiting ∧
    (completeTurn (processTreatment params ov s)).hourComplete = true ∧
    (∀ ov2, (processTreatment params ov2 (processTreatment params ov s)).currentPhase =
        Phase.waiting ∧
      (processTreatment params ov2 (processTreatment params ov s)).hourComplete = true) ∧
    (∀ hr, clientPlayerReady hr (processTreatment params ov s) = false ∧
      monitorPlayerReady hr (processTreatment params ov s) = false) := by
  have hmain : processTreatment params ov s = processTreatmentMain params ov s := by
    unfold processTreatment
    rw [if_neg (not_le.mpr h)]
  rw [hmain]
  refine ⟨rfl, rfl, rfl, rfl, rfl, rfl, ?_, ?_⟩
  · intro ov2
    have hle : (processTreatmentMain params ov s).lastArrivalsHour ≤
        (processTreatmentMain params ov s).lastTreatmentHour := Nat.le_of_eq rfl
    have hdr : (processTreatmentMain params ov s).currentPhase ≠ Phase.waiting ∨
        (processTreatmentMain params ov s).hourComplete = false :=
      Or.inl (fun hq => Phase.noConfusion hq)
    unfold processTreatment
    rw [if_pos hle, if_pos hdr]
    exact ⟨rfl, rfl⟩
  · intro hr
    exact ⟨rfl, rfl⟩

/-- C10 (witness): the theorem applied to a treating-phase state about to
process hour 1, with the repeated call taken at no override. -/
theorem processTreatment_first_time_spec_witness :
    (processTreatment defaultParams none stPreTreat).currentPhase = Phase.review ∧
    (processTreatment defaultParams none stPreTreat).hourComplete = false ∧
    (processTreatment defaultParams none stPreTreat).lastCompletedHour =
      stPreTreat.lastArrivalsHour ∧
    (processTreatment defaultParams none stPreTreat).lastTreatmentHour =
      stPreTreat.lastArrivalsHour ∧
    (processTreatment defaultParams none
        (processTreatment defaultParams none stPreTreat)).currentPhase = Phase.waiting ∧
    clientPlayerReady 1 (processTreatment defaultParams none stPreTreat) = false := by
  have h := processTreatment_first_time_spec defaultParams none stPreTreat (by decide)
  exact ⟨h.1, h.2.1, h.2.2.1, h.2.2.2.1, (h.2.2.2.2.2.2.1 none).1, (h.2.2.2.2.2.2.2 1).1⟩

/-- C3 (counterexample): an incoming snapshot with a strictly greater
arrivals watermark is not always accepted — when the locally-tracked
processed-arrivals hour (here 10) is ahead of the incoming watermark (6),
the callback's tracked-hour guard keeps the local state even though the
incoming watermark exceeds the local one (5). -/
theorem reconcile_ref_guard_rejects_newer :
    prevLocal.lastArrivalsHour < incomingSix.lastArrivalsHour ∧
    reconcileGameState false 10 prevLocal incomingSix = prevLocal ∧
    reconcileGameState false 10 prevLocal incomingSix ≠ incomingSix := by
  decide

/-- C3 (amended): outside the lock window, with the locally-tracked
processed-arrivals hour at or below the local state's arrivals watermark
(the tracked-hour guard otherwise intervenes), the reconciler keeps the
local state when the incoming watermark is strictly smaller, keeps it when
the watermarks are equal and the incoming phase is strictly earlier in the
canonical order, and accepts the incoming snapshot whenever its watermark is
strictly greater. -/
theorem reconcile_guard_spec (ref : Nat) (prev incoming : PlayerGameState)
    (href : ref ≤ prev.lastArrivalsHour) :
    (incoming.lastArrivalsHour < prev.lastArrivalsHour →
      reconcileGameState false ref prev incoming = prev) ∧
    (incoming.lastArrivalsHour = prev.lastArrivalsHour →
      phaseOrderVal incoming.currentPhase < phaseOrderVal prev.currentPhase →
      reconcileGameState false ref prev incoming = prev) ∧
    (prev.lastArrivalsHour < incoming.lastArrivalsHour →
      reconcileGameState false ref prev incoming = incoming) := by
  have hlock : reconcileGameState false ref prev incoming =
      reconcileDecision ref prev incoming := rfl
  refine ⟨?_, ?_, ?_⟩
  · intro h1
    rw [hlock]
    unfold reconcileDecision
    by_cases hg : incoming.lastArrivalsHour < ref
    · rw [if_pos hg]
    · rw [if_neg hg, if_pos h1]
  · intro h1 h2
    rw [hlock]
    unfold reconcileDecision
    by_cases hg : incoming.lastArrivalsHour < ref
    · rw [if_pos hg]
    · rw [if_neg hg, if_neg (by omega), if_pos ⟨h1, h2⟩]
  · intro h1
    rw [hlock]
    unfold reconcileDecision
    rw [if_neg (by omega), if_neg (by omega), if_neg ?_]
    rintro ⟨he, -⟩
    omega

/-- C3 (witness): local watermark 5 in `sequencing` rejects an incoming
watermark-5 `waiting` snapshot and accepts an incoming watermark-6
snapshot. -/
theorem reconcile_guard_spec_witness :
    reconcileGameState false 5 prevLocal incomingFiveWaiting = prevLocal ∧
    reconcileGameState false 5 prevLocal incomingSix = incomingSix :=
  ⟨(reconcile_guard_spec 5 prevLocal incomingFiveWaiting (by decide)).2.1 (by decide)
      (by decide),
   (reconcile_guard_spec 5 prevLocal incomingSix (by decide)).2.2 (by decide)⟩

/-- C7 (counterexample): the player client's auto-advance readiness predicate
does not consult the sequencing watermark — a player with the other three
watermarks at hour 5 but `lastSequencingHour = 0` passes it. -/
theorem clientAllReady_ignores_sequencing_watermark :
    clientAllReady 5 [gsNoSeq] = true ∧ ¬ 5 ≤ gsNoSeq.lastSequencingHour := by
  decide

/-- C7 (amended): when the instructor monitor's readiness predicate fires,
every player is in `waiting`, hour-complete, with all four watermarks at or
beyond the session hour; when the player client's auto-advance predicate
fires, every player satisfies the same conditions except that only the
completion, arrivals and treatment watermarks are guaranteed — the
sequencing watermark is not consulted. -/
theorem advance_readiness_spec (h : Nat) (players : List PlayerGameState) :
    (monitorAllReady h players = true →
      ∀ gs ∈ players, gs.currentPhase = Phase.waiting ∧ gs.hourComplete = true ∧
        h ≤ gs.lastCompletedHour ∧ h ≤ gs.lastArrivalsHour ∧
        h ≤ gs.lastTreatmentHour ∧ h ≤ gs.lastSequencingHour) ∧
    (clientAllReady h players = true →
      ∀ gs ∈ players, gs.currentPhase = Phase.waiting ∧ gs.hourComplete = true ∧
        h ≤ gs.lastCompletedHour ∧ h ≤ gs.lastArrivalsHour ∧
        h ≤ gs.lastTreatmentHour) := by
  constructor
  · intro hall gs hmem
    simp only [monitorAllReady, Bool.and_eq_true, List.all_eq_true] at hall
    have hgs := hall.2 gs hmem
    simp only [monitorPlayerReady, Bool.and_eq_true, decide_eq_true_eq] at hgs
    obtain ⟨⟨⟨⟨⟨h1, h2⟩, h3⟩, h4⟩, h5⟩, h6⟩ := hgs
    exact ⟨h1, h2, h3, h4, h5, h6⟩
  · intro hall gs hmem
    simp only [clientAllReady, List.all_eq_true] at hall
    have hgs := hall gs hmem
    simp only [clientPlayerReady, Bool.and_eq_true, decide_eq_true_eq] at hgs
    obtain ⟨⟨⟨⟨h1, h2⟩, h3⟩, h4⟩, h5⟩ := hgs
    exact ⟨h1, h2, h3, h4, h5⟩

/-- C7 (witness): the amended theorem applied to a single fully-ready player
at hour 5. -/
theorem advance_readiness_spec_witness :
    gsFull.currentPhase = Phase.waiting ∧ gsFull.hourComplete = true ∧
    5 ≤ gsFull.lastCompletedHour ∧ 5 ≤ gsFull.lastArrivalsHour ∧
    5 ≤ gsFull.lastTreatmentHour ∧ 5 ≤ gsFull.lastSequencingHour :=
  (advance_readiness_spec 5 [gsFull]).1 (by decide) gsFull (List.Mem.head _)

/-- C8 (counterexample): the monitor's treating-phase rescue write differs
from a `processTreatment` call on the same stuck state — the claim that the
rescue state equals the `processTreatment` fixup state is false. -/
theorem rescue_write_differs_from_processTreatment :
    treatingStuckGuard 1 gsStuck = true ∧
    gsStuck.lastTreatmentHour < gsStuck.lastArrivalsHour ∧
    rescueTreatingStuck 1 gsStuck ≠ processTreatment defaultParams none gsStuck := by
  decide

/-- C8 (amended): the GameBoard rolling failsafe does advance via the same
`processTreatment` call, but the monitor's treating-phase rescue is a
bespoke partial-field write: on a stuck state whose treatment watermark is
behind its arrivals hour it lands in `waiting` while `processTreatment`
lands in `review`, so the two advancement paths produce different states. -/
theorem rescue_vs_processTreatment_spec (params : GameParameters) (sessionHour : Nat)
    (gs : PlayerGameState) (_hg : treatingStuckGuard sessionHour gs = true)
    (hbehind : gs.lastTreatmentHour < gs.lastArrivalsHour) :
    rollingFailsafeAdvance params gs = processTreatment params none gs ∧
    (rescueTreatingStuck sessionHour gs).currentPhase = Phase.waiting ∧
    (processTreatment params none gs).currentPhase = Phase.review ∧
    rescueTreatingStuck sessionHour gs ≠ processTreatment params none gs := by
  have hmain : processTreatment params none gs = processTreatmentMain params none gs := by
    unfold processTreatment
    rw [if_neg (not_le.mpr hbehind)]
  refine ⟨rfl, rfl, by rw [hmain]; rfl, ?_⟩
  intro heq
  have hph : (rescueTreatingStuck sessionHour gs).currentPhase =
      (processTreatment params none gs).currentPhase := by rw [heq]
  rw [hmain] at hph
  exact Phase.noConfusion hph

/-- C8 (witness): the amended theorem applied to the concrete stuck player. -/
theorem rescue_vs_processTreatment_spec_witness :
    rollingFailsafeAdvance defaultParams gsStuck =
      processTreatment defaultParams none gsStuck ∧
    (rescueTreatingStuck 1 gsStuck).currentPhase = Phase.waiting ∧
    (processTreatment defaultParams none gsStuck).currentPhase = Phase.review ∧
    rescueTreatingStuck 1 gsStuck ≠ processTreatment defaultParams none gsStuck :=
  rescue_vs_processTreatment_spec defaultParams 1 gsStuck (by decide) (by decide)

/-- Membership in the folded widening of `expandRiskRolls`, generalized over
the accumulator. -/
theorem mem_expandRiskRolls_aux (w roll : Nat) (base : List Nat) :
    ∀ acc : List Nat,
      (roll ∈ base.foldl (fun acc v =>
        acc ++ ((List.range (w + 1)).filterMap (fun i =>
          if 1 ≤ v - i then some (v - i) else none))) acc) ↔
      roll ∈ acc ∨ ∃ v ∈ base, ∃ i ≤ w, 1 ≤ roll ∧ roll + i = v := by
  induction base with
  | nil => intro acc; simp
  | cons v vs ih =>
    intro acc
    rw [List.foldl_cons, ih]
    simp only [List.mem_append, List.mem_filterMap, List.mem_range, List.mem_cons]
    constructor
    · rintro ((hacc | ⟨i, hi, hv⟩) | ⟨u, hu, hrest⟩)
      · exact Or.inl hacc
      · by_cases h1 : 1 ≤ v - i
        · rw [if_pos h1] at hv
          have hvr := Option.some.inj hv
          exact Or.inr ⟨v, Or.inl rfl, i, by omega, by omega, by omega⟩
        · rw [if_neg h1] at hv
          exact absurd hv (by simp)
      · exact Or.inr ⟨u, Or.inr hu, hrest⟩
    · rintro (hacc | ⟨u, hu | hu, hrest⟩)
      · exact Or.inl (Or.inl hacc)
      · subst hu
        obtain ⟨i, hi, h1, h2⟩ := hrest
        refine Or.inl (Or.inr ⟨i, by omega, ?_⟩)
        rw [if_pos (by omega)]
        exact congrArg some (by omega)
      · exact Or.inr ⟨u, hu, hrest⟩

/-- Membership in the widened trigger set: exactly the values `v - i` for a
configured trigger `v` and a widening offset `i` up to the waiting time,
kept only when at least 1. -/
theorem mem_expandRiskRolls (base : List Nat) (w roll : Nat) :
    roll ∈ expandRiskRolls base w ↔
      ∃ v ∈ base, ∃ i ≤ w, 1 ≤ roll ∧ roll + i = v := by
  unfold expandRiskRolls
  rw [mem_expandRiskRolls_aux w roll base []]
  simp

/-- C4: the risk predicate of `rollForRiskEvents`.  With the
time-sensitive-waiting-harms toggle off, a roll is a risk event iff it is in
the patient type's configured trigger set; with the toggle on, iff it is in
the widened set containing, for every configured trigger `v`, the values
`v, v-1, …, v-waitingTime` clamped below at 1. -/
theorem risk_predicate_spec (params : GameParameters) (p : Patient) (roll : Nat) :
    (params.timeSensitiveWaitingHarms = false →
      (isRiskEventRoll params p roll = true ↔
        roll ∈ params.riskEventRolls.get p.type)) ∧
    (params.timeSensitiveWaitingHarms = true →
      (isRiskEventRoll params p roll = true ↔
        ∃ v ∈ params.riskEventRolls.get p.type,
          ∃ i ≤ p.waitingTime, 1 ≤ roll ∧ roll + i = v)) := by
  constructor
  · intro hoff
    unfold isRiskEventRoll riskRollsFor
    rw [hoff]
    simp
  · intro hon
    unfold isRiskEventRoll riskRollsFor
    rw [hon]
    simp only [if_true]
    rw [show ((List.contains (expandRiskRolls (params.riskEventRolls.get p.type)
        p.waitingTime) roll = true) ↔
        roll ∈ expandRiskRolls (params.riskEventRolls.get p.type) p.waitingTime) from by simp]
    exact mem_expandRiskRolls _ _ _

/-- C4 (witness): a type-B patient who has waited two hours against the base
trigger set `{20}`: with the toggle on, 18 is in the widened set (so it is a
risk event); with the toggle off, eventhood at 18 is exactly membership of
18 in `{20}` (so it is not). -/
theorem risk_predicate_spec_witness :
    (isRiskEventRoll timeSensitiveParams patientWaitedTwo 18 = true ↔
      ∃ v ∈ timeSensitiveParams.riskEventRolls.get patientWaitedTwo.type,
        ∃ i ≤ patientWaitedTwo.waitingTime, 1 ≤ 18 ∧ 18 + i = v) ∧
    (isRiskEventRoll defaultParams patientWaitedTwo 18 = true ↔
      18 ∈ defaultParams.riskEventRolls.get patientWaitedTwo.type) :=
  ⟨(risk_predicate_spec timeSensitiveParams patientWaitedTwo 18).2 rfl,
   (risk_predicate_spec defaultParams patientWaitedTwo 18).1 rfl⟩

/-- C5: during sequencing, `movePatientToRoom` succeeds exactly when the
found patient and the found room exist, the room is unoccupied, and the
capability matrix allows the patient's type in the room's tier; on success
the patient leaves the queue and enters the room as `assignedPatient`
(status `treating`, full treatment progress, mismatch flag); in every other
case — wrong phase, unknown patient or room id, occupied room, incompatible
tier — the call leaves the state unchanged. -/
theorem movePatientToRoom_spec (params : GameParameters) (s : PlayerGameState)
    (patientId roomId : Nat) :
    (s.currentPhase ≠ Phase.sequencing →
      movePatientToRoom params patientId roomId s = s) ∧
    (s.waitingRoom.find? (fun p => p.id = patientId) = none →
      movePatientToRoom params patientId roomId s = s) ∧
    (s.rooms.find? (fun r => r.id = roomId) = none →
      movePatientToRoom params patientId roomId s = s) ∧
    (s.currentPhase = Phase.sequencing →
      ∀ patient room,
        s.waitingRoom.find? (fun p => p.id = patientId) = some patient →
        s.rooms.find? (fun r => r.id = roomId) = some room →
        ((room.isOccupied = true → movePatientToRoom params patientId roomId s = s) ∧
         (room.isOccupied = false → canTreatInRoom patient.type room.type = false →
           movePatientToRoom params patientId roomId s = s) ∧
         (room.isOccupied = false → canTreatInRoom patient.type room.type = true →
           movePatientToRoom params patientId roomId s =
             { s with
               rooms := s.rooms.map (fun r =>
                 if r.id = roomId then
                   { r with isOccupied := true,
                            patient := some (assignedPatient params patient room) }
                 else r)
               waitingRoom := s.waitingRoom.filter (fun p => ¬ p.id = patientId) }))) := by
  refine ⟨?_, ?_, ?_, ?_⟩
  · intro h
    unfold movePatientToRoom
    rw [if_pos h]
  · intro h
    unfold movePatientToRoom
    by_cases hph : s.currentPhase ≠ Phase.sequencing
    · rw [if_pos hph]
    · rw [if_neg hph, h]
  · intro h
    unfold movePatientToRoom
    by_cases hph : s.currentPhase ≠ Phase.sequencing
    · rw [if_pos hph]
    · rw [if_neg hph, h]
      cases s.waitingRoom.find? (fun p => p.id = patientId) <;> rfl
  · intro hph patient room hp hr
    refine ⟨?_, ?_, ?_⟩
    · intro hocc
      unfold movePatientToRoom
      rw [if_neg (not_not.mpr hph), hp, hr]
      simp only [hocc, if_true]
    · intro hocc hct
      unfold movePatientToRoom
      rw [if_neg (not_not.mpr hph), hp, hr]
      simp only [hocc, hct, Bool.false_eq_true, if_false, not_false_eq_true, if_true]
    · intro hocc hct
      unfold movePatientToRoom
      rw [if_neg (not_not.mpr hph), hp, hr]
      simp only [hocc, hct, Bool.false_eq_true, if_false, not_true_eq_false, if_true]

/-- C5 (witness): in the concrete sequencing state, the type-A patient
cannot be placed into the medium room (no-op) and is placed into the high
room (queue shrinks, room occupied by the assigned patient). -/
theorem movePatientToRoom_spec_witness :
    movePatientToRoom defaultParams 1 2 seqState = seqState ∧
    movePatientToRoom defaultParams 1 3 seqState =
      { seqState with
        rooms := seqState.rooms.map (fun r =>
          if r.id = 3 then
            { r with isOccupied := true,
                     patient := some (assignedPatient defaultParams patientA1 roomHigh3) }
          else r)
        waitingRoom := seqState.waitingRoom.filter (fun p => ¬ p.id = 1) } :=
  ⟨((movePatientToRoom_spec defaultParams seqState 1 2).2.2.2 (by decide) patientA1 roomMed2
      (by decide) (by decide)).2.1 (by decide) (by decide),
   ((movePatientToRoom_spec defaultParams seqState 1 3).2.2.2 (by decide) patientA1 roomHigh3
      (by decide) (by decide)).2.2 (by decide) (by decide)⟩

/-- Reading one field of a per-type record after modifying one. -/
theorem PerType.get_modify (v : PerType Nat) (t t2 : PatientType) (f : Nat → Nat) :
    (v.modify t f).get t2 = if t = t2 then f (v.get t2) else v.get t2 := by
  cases t <;> cases t2 <;> simp [PerType.modify, PerType.get]

/-- Appending one patient to a risk-cost sum. -/
theorem riskCostOf_append (params : GameParameters) (l : List Patient) (p : Patient) :
    riskCostOf params (l ++ [p]) = riskCostOf params l + params.riskEventCost.get p.type := by
  unfold riskCostOf
  rw [List.foldl_append]
  rfl

/-- Unfolding the admission loop one step. -/
theorem admitAll_cons (params : GameParameters) (p : Patient) (ps : List Patient)
    (acc : AdmitAcc) :
    admitAll params (p :: ps) acc = admitAll params ps (admitOne params acc p) := rfl

/-- The admission loop never grows the queue beyond capacity (given it
starts within capacity). -/
theorem admitAll_length_le (params : GameParameters) (ps : List Patient) :
    ∀ acc : AdmitAcc, acc.queue.length ≤ params.maxWaitingRoom →
      (admitAll params ps acc).queue.length ≤ params.maxWaitingRoom := by
  induction ps with
  | nil => intro acc h; exact h
  | cons p ps ih =>
    intro acc h
    rw [admitAll_cons]
    apply ih
    unfold admitOne
    by_cases hlt : acc.queue.length < params.maxWaitingRoom
    · rw [if_pos hlt]
      simp only [List.length_append, List.length_cons, List.length_nil]
      omega
    · rw [if_neg hlt]
      exact h

/-- Members of the admission loop's outputs: every turned-away entry was
turned away (status `turned_away`) unless it was already in the accumulator,
and every queue entry came from the accumulator or was admitted with status
`waiting`. -/
theorem admitAll_mem_spec (params : GameParameters) (ps : List Patient) :
    ∀ acc : AdmitAcc,
      (∀ p ∈ (admitAll params ps acc).turnedAway,
        p ∈ acc.turnedAway ∨ p.status = PStatus.turnedAway) ∧
      (∀ q ∈ (admitAll params ps acc).queue,
        q ∈ acc.queue ∨ q.status = PStatus.waiting) := by
  induction ps with
  | nil => intro acc; exact ⟨fun p hp => Or.inl hp, fun q hq => Or.inl hq⟩
  | cons p ps ih =>
    intro acc
    rw [admitAll_cons]
    constructor
    · intro x hx
      rcases (ih (admitOne params acc p)).1 x hx with hmem | hst
      · unfold admitOne at hmem
        by_cases hlt : acc.queue.length < params.maxWaitingRoom
        · rw [if_pos hlt] at hmem
          exact Or.inl hmem
        · rw [if_neg hlt] at hmem
          rcases List.mem_append.mp hmem with h1 | h1
          · exact Or.inl h1
          · have h2 := List.mem_singleton.mp h1
            subst h2
            exact Or.inr rfl
      · exact Or.inr hst
    · intro x hx
      rcases (ih (admitOne params acc p)).2 x hx with hmem | hst
      · unfold admitOne at hmem
        by_cases hlt : acc.queue.length < params.maxWaitingRoom
        · rw [if_pos hlt] at hmem
          rcases List.mem_append.mp hmem with h1 | h1
          · exact Or.inl h1
          · have h2 := List.mem_singleton.mp h1
            subst h2
            exact Or.inr rfl
        · rw [if_neg hlt] at hmem
          exact Or.inl hmem
      · exact Or.inr hst

/-- Bookkeeping of the admission loop: waiting costs untouched, risk-event
costs and per-type turned-away counters advance exactly by the turned-away
additions. -/
theorem admitAll_stats_spec (params : GameParameters) (ps : List Patient) :
    ∀ acc : AdmitAcc,
      (admitAll params ps acc).stats.waitingCosts = acc.stats.waitingCosts ∧
      (admitAll params ps acc).stats.riskEventCosts + riskCostOf params acc.turnedAway
        = acc.stats.riskEventCosts
          + riskCostOf params (admitAll params ps acc).turnedAway ∧
      ∀ ty, (admitAll params ps acc).stats.turnedAway.get ty
          + (acc.turnedAway.filter (fun p => p.type = ty)).length
        = acc.stats.turnedAway.get ty
          + ((admitAll params ps acc).turnedAway.filter (fun p => p.type = ty)).length := by
  induction ps with
  | nil => intro acc; exact ⟨rfl, rfl, fun ty => rfl⟩
  | cons p ps ih =>
    intro acc
    by_cases hlt : acc.queue.length < params.maxWaitingRoom
    · have hq : admitOne params acc p =
          { acc with queue := acc.queue ++ [{ p with status := PStatus.waiting }] } := by
        unfold admitOne
        rw [if_pos hlt]
      rw [admitAll_cons, hq]
      obtain ⟨ihWC, ihRE, ihCnt⟩ :=
        ih { acc with queue := acc.queue ++ [{ p with status := PStatus.waiting }] }
      exact ⟨ihWC, ihRE, ihCnt⟩
    · have hq : admitOne params acc p =
          { queue := acc.queue
            turnedAway := acc.turnedAway ++ [{ p with status := PStatus.turnedAway }]
            stats := { acc.stats with
              turnedAway := acc.stats.turnedAway.modify p.type (· + 1)
              riskEventCosts := acc.stats.riskEventCosts
                + params.riskEventCost.get p.type } } := by
        unfold admitOne
        rw [if_neg hlt]
      rw [admitAll_cons, hq]
      dsimp only
      obtain ⟨ihWC, ihRE, ihCnt⟩ :=
        ih { queue := acc.queue
             turnedAway := acc.turnedAway ++ [{ p with status := PStatus.turnedAway }]
             stats := { acc.stats with
               turnedAway := acc.stats.turnedAway.modify p.type (· + 1)
               riskEventCosts := acc.stats.riskEventCosts
                 + params.riskEventCost.get p.type } }
      dsimp only at ihWC ihRE ihCnt
      refine ⟨ihWC, ?_, ?_⟩
      · rw [riskCostOf_append] at ihRE
        dsimp only at ihRE
        omega
      · intro ty
        have hcnt := ihCnt ty
        rw [List.filter_append, List.length_append, PerType.get_modify] at hcnt
        by_cases hty : p.type = ty
        · rw [if_pos hty] at hcnt
          have hone : (List.filter (fun q => decide (q.type = ty))
              [{ p with status := PStatus.turnedAway }]).length = 1 := by
            simp [hty]
          rw [hone] at hcnt
          omega
        · rw [if_neg hty] at hcnt
          have hzero : (List.filter (fun q => decide (q.type = ty))
              [{ p with status := PStatus.turnedAway }]).length = 0 := by
            simp [hty]
          rw [hzero] at hcnt
          omega

/-- `arrivalsAdmission` in terms of the raw admission loop. -/
theorem arrivalsAdmission_def (params : GameParameters) (hour baseId : Nat)
    (arr : HourlyArrivals) (s : PlayerGameState) :
    arrivalsAdmission params hour baseId arr s =
      admitAll params (sortByPriority (mkPatients hour baseId arr))
        ⟨s.waitingRoom, [], snapshotStats s arr⟩ := rfl

/-- Bookkeeping of the whole admission pass relative to the pre-state. -/
theorem arrivalsAdmission_stats (params : GameParameters) (hour baseId : Nat)
    (arr : HourlyArrivals) (s : PlayerGameState) :
    (arrivalsAdmission params hour baseId arr s).stats.waitingCosts
      = s.stats.waitingCosts ∧
    (arrivalsAdmission params hour baseId arr s).stats.riskEventCosts
      = s.stats.riskEventCosts
        + riskCostOf params (arrivalsAdmission params hour baseId arr s).turnedAway ∧
    ∀ ty, (arrivalsAdmission params hour baseId arr s).stats.turnedAway.get ty
      = s.stats.turnedAway.get ty
        + ((arrivalsAdmission params hour baseId arr s).turnedAway.filter
            (fun p => p.type = ty)).length := by
  obtain ⟨hWC, hRE, hCnt⟩ := admitAll_stats_spec params
    (sortByPriority (mkPatients hour baseId arr))
    ⟨s.waitingRoom, [], snapshotStats s arr⟩
  rw [arrivalsAdmission_def]
  refine ⟨hWC, ?_, ?_⟩
  · have h0 : riskCostOf params ([] : List Patient) = 0 := rfl
    have hsnap : (snapshotStats s arr).riskEventCosts = s.stats.riskEventCosts := rfl
    dsimp only at hRE
    rw [h0, hsnap] at hRE
    omega
  · intro ty
    have hcnt := hCnt ty
    have hsnap : (snapshotStats s arr).turnedAway.get ty = s.stats.turnedAway.get ty := rfl
    dsimp only at hcnt
    rw [List.filter_nil, List.length_nil, hsnap] at hcnt
    omega

/-- C6: under the guards of `processArrivals` (fresh hour, no mid-flight
phase) and a within-capacity all-waiting queue, after the call the queue
holds at most `maxWaitingRoom` patients; every patient of the admission
pass's turned-away list carries status `turned_away` and is absent from the
resulting queue; the per-type turned-away counters advance by the per-type
turned-away counts; and both the risk-event-cost statistic and the
cumulative cost advance by exactly the summed risk-event costs of the
turned-away patients, at arrival time. -/
theorem processArrivals_capacity_spec (params : GameParameters)
    (hour baseId : Nat) (arr : HourlyArrivals) (s : PlayerGameState)
    (hw : s.lastArrivalsHour < hour)
    (hph1 : s.currentPhase ≠ Phase.rolling)
    (hph2 : s.currentPhase ≠ Phase.treating)
    (hqlen : s.waitingRoom.length ≤ params.maxWaitingRoom)
    (hqstat : (s.waitingRoom.all fun p => decide (p.status = PStatus.waiting)) = true) :
    (processArrivals params hour baseId arr s).waitingRoom.length
      ≤ params.maxWaitingRoom ∧
    ((arrivalsAdmission params hour baseId arr s).turnedAway.all
      (fun p => decide (p.status = PStatus.turnedAway) &&
        decide (p ∉ (processArrivals params hour baseId arr s).waitingRoom))) = true ∧
    (∀ ty, (processArrivals params hour baseId arr s).stats.turnedAway.get ty
      = s.stats.turnedAway.get ty
        + ((arrivalsAdmission params hour baseId arr s).turnedAway.filter
            (fun p => p.type = ty)).length) ∧
    (processArrivals params hour baseId arr s).stats.riskEventCosts
      = s.stats.riskEventCosts
        + riskCostOf params (arrivalsAdmission params hour baseId arr s).turnedAway ∧
    (processArrivals params hour baseId arr s).totalCost
      = s.totalCost
        + riskCostOf params (arrivalsAdmission params hour baseId arr s).turnedAway := by
  have hmain : processArrivals params hour baseId arr s =
      { s with
        waitingRoom := (arrivalsAdmission params hour baseId arr s).queue
        totalCost := s.totalCost
          + (arrivalsAdmission params hour baseId arr s).stats.riskEventCosts
          - s.stats.riskEventCosts
        stats := (arrivalsAdmission params hour baseId arr s).stats
        currentPhase := Phase.sequencing
        hourComplete := false
        lastArrivalsHour := hour
        turnEvents :=
          { arrived := ⟨arr.A, arr.B, arr.C⟩
            turnedAway := countsByType (arrivalsAdmission params hour baseId arr s).turnedAway
            riskEvents := []
            completed := []
            waitingCosts := 0 } } := by
    unfold processArrivals
    rw [if_neg (not_le.mpr hw), if_neg (not_or.mpr ⟨hph1, hph2⟩)]
  obtain ⟨hWC, hRE, hCnt⟩ := arrivalsAdmission_stats params hour baseId arr s
  obtain ⟨hmemT, hmemQ⟩ := admitAll_mem_spec params
    (sortByPriority (mkPatients hour baseId arr))
    ⟨s.waitingRoom, [], snapshotStats s arr⟩
  rw [← arrivalsAdmission_def params hour baseId arr s] at hmemT hmemQ
  rw [hmain]
  dsimp only
  refine ⟨?_, ?_, ?_, ?_, ?_⟩
  · rw [arrivalsAdmission_def]
    exact admitAll_length_le params _ _ hqlen
  · rw [List.all_eq_true]
    intro p hp
    have hstatus : p.status = PStatus.turnedAway := by
      rcases hmemT p hp with hin | hst
      · exact absurd hin (List.not_mem_nil p)
      · exact hst
    simp only [Bool.and_eq_true, decide_eq_true_eq]
    refine ⟨hstatus, ?_⟩
    intro hqmem
    rcases hmemQ p hqmem with hin | hst
    · have hws := List.all_eq_true.mp hqstat p hin
      rw [decide_eq_true_eq, hstatus] at hws
      exact PStatus.noConfusion hws
    · rw [hstatus] at hst
      exact PStatus.noConfusion hst
  · exact hCnt
  · exact hRE
  · rw [hRE]
    omega

/-- C6 (witness): the spec scenario — capacity 2, arrivals one of each type
from the empty initial queue: two admitted, the type-C patient turned away
and counted, its risk-event cost (200) accrued immediately. -/
theorem processArrivals_capacity_spec_witness :
    (processArrivals capTwoParams 1 0 ⟨1, 1, 1⟩ initPlayerGameState).waitingRoom.length
      ≤ capTwoParams.maxWaitingRoom ∧
    ((arrivalsAdmission capTwoParams 1 0 ⟨1, 1, 1⟩ initPlayerGameState).turnedAway.all
      (fun p => decide (p.status = PStatus.turnedAway) &&
        decide (p ∉ (processArrivals capTwoParams 1 0 ⟨1, 1, 1⟩
          initPlayerGameState).waitingRoom))) = true ∧
    (processArrivals capTwoParams 1 0 ⟨1, 1, 1⟩
        initPlayerGameState).stats.turnedAway.get PatientType.C
      = initPlayerGameState.stats.turnedAway.get PatientType.C
        + ((arrivalsAdmission capTwoParams 1 0 ⟨1, 1, 1⟩
            initPlayerGameState).turnedAway.filter
              (fun p => p.type = PatientType.C)).length ∧
    (processArrivals capTwoParams 1 0 ⟨1, 1, 1⟩ initPlayerGameState).stats.riskEventCosts
      = initPlayerGameState.stats.riskEventCosts
        + riskCostOf capTwoParams (arrivalsAdmission capTwoParams 1 0 ⟨1, 1, 1⟩
            initPlayerGameState).turnedAway ∧
    (processArrivals capTwoParams 1 0 ⟨1, 1, 1⟩ initPlayerGameState).totalCost
      = initPlayerGameState.totalCost
        + riskCostOf capTwoParams (arrivalsAdmission capTwoParams 1 0 ⟨1, 1, 1⟩
            initPlayerGameState).turnedAway := by
  have h := processArrivals_capacity_spec capTwoParams 1 0 ⟨1, 1, 1⟩ initPlayerGameState
    (by decide) (by decide) (by decide) (by decide) (by decide)
  exact ⟨h.1, h.2.1, h.2.2.1 PatientType.C, h.2.2.2.1, h.2.2.2.2⟩

/-- Appending one patient to a revenue sum. -/
theorem revenueOf_append (params : GameParameters) (l : List Patient) (p : Patient) :
    revenueOf params (l ++ [p])
      = revenueOf params l + params.revenuePerPatient.get p.type := by
  unfold revenueOf
  rw [List.foldl_append]
  rfl

/-- The max-waiting-time update loop leaves the cost accumulators alone. -/
theorem updateMaxWaiting_fields (ps : List Patient) :
    ∀ stats : PlayerStats,
      (updateMaxWaiting stats ps).riskEventCosts = stats.riskEventCosts ∧
      (updateMaxWaiting stats ps).waitingCosts = stats.waitingCosts := by
  induction ps with
  | nil => intro stats; exact ⟨rfl, rfl⟩
  | cons p ps ih =>
    intro stats
    have hstep : updateMaxWaiting stats (p :: ps) =
        updateMaxWaiting
          (if stats.maxWaitingTime.get p.type < p.waitingTime then
            { stats with maxWaitingTime :=
                stats.maxWaitingTime.modify p.type (fun _ => p.waitingTime) }
          else stats) ps := rfl
    rw [hstep]
    by_cases hlt : stats.maxWaitingTime.get p.type < p.waitingTime
    · rw [if_pos hlt]
      exact ih _
    · rw [if_neg hlt]
      exact ih stats

/-- One step of the risk-application loop moves risk-event cost and the
additional-cost tally in lockstep and never touches waiting costs. -/
theorem applyOneRisk_money (params : GameParameters) (acc : RiskAcc) (res : RiskResult) :
    (applyOneRisk params acc res).stats.riskEventCosts + acc.additionalCosts
      = acc.stats.riskEventCosts + (applyOneRisk params acc res).additionalCosts ∧
    (applyOneRisk params acc res).stats.waitingCosts = acc.stats.waitingCosts := by
  unfold applyOneRisk
  by_cases hev : res.isEvent = true
  · rw [if_pos hev]
    cases hfind : acc.waitingRoom.find? (fun p => p.id = res.patientId) with
    | none =>
      exact ⟨rfl, rfl⟩
    | some patient =>
      show (riskRemove params acc res patient).stats.riskEventCosts + acc.additionalCosts
          = acc.stats.riskEventCosts + (riskRemove params acc res patient).additionalCosts ∧
        (riskRemove params acc res patient).stats.waitingCosts = acc.stats.waitingCosts
      have hmoney : (riskStatsUpdate acc.stats patient.type).riskEventCosts
            = acc.stats.riskEventCosts ∧
          (riskStatsUpdate acc.stats patient.type).waitingCosts
            = acc.stats.waitingCosts := by
        cases patient.type <;> exact ⟨rfl, rfl⟩
      obtain ⟨m1, m2⟩ := hmoney
      constructor
      · unfold riskRemove
        dsimp only
        rw [m1]
        omega
      · unfold riskRemove
        dsimp only
        exact m2
  · rw [if_neg hev]
    exact ⟨rfl, rfl⟩

/-- The risk-application loop moves risk-event cost and the additional-cost
tally in lockstep and never touches waiting costs. -/
theorem riskFold_spec (params : GameParameters) (results : List RiskResult) :
    ∀ acc : RiskAcc,
      (results.foldl (applyOneRisk params) acc).stats.riskEventCosts
          + acc.additionalCosts
        = acc.stats.riskEventCosts
          + (results.foldl (applyOneRisk params) acc).additionalCosts ∧
      (results.foldl (applyOneRisk params) acc).stats.waitingCosts
        = acc.stats.waitingCosts := by
  induction results with
  | nil => intro acc; exact ⟨rfl, rfl⟩
  | cons res results ih =>
    intro acc
    rw [List.foldl_cons]
    obtain ⟨ih1, ih2⟩ := ih (applyOneRisk params acc res)
    obtain ⟨s1, s2⟩ := applyOneRisk_money params acc res
    constructor
    · omega
    · rw [ih2, s2]

/-- One step of the treatment loop moves revenue and the discharge ledger in
lockstep, never touches the cost accumulators, and only appends
status-`treated` patients to the ledger. -/
theorem treatRoom_money (params : GameParameters) (acc : TreatAcc) (room : Room) :
    revenueOf params (treatRoom params acc room).completedPatients
        + acc.additionalRevenue
      = revenueOf params acc.completedPatients
        + (treatRoom params acc room).additionalRevenue ∧
    (treatRoom params acc room).stats.riskEventCosts = acc.stats.riskEventCosts ∧
    (treatRoom params acc room).stats.waitingCosts = acc.stats.waitingCosts ∧
    ((treatRoom params acc room).completedPatients.all
        fun p => decide (p.status = PStatus.treated))
      = (acc.completedPatients.all fun p => decide (p.status = PStatus.treated)) := by
  unfold treatRoom
  cases hp : room.patient with
  | none => exact ⟨rfl, rfl, rfl, rfl⟩
  | some patient =>
    dsimp only
    split
    · refine ⟨?_, rfl, rfl, ?_⟩
      · rw [revenueOf_append]
        dsimp only
        omega
      · rw [List.all_append]
        simp
    · exact ⟨rfl, rfl, rfl, rfl⟩

/-- The treatment loop moves revenue and the discharge ledger in lockstep,
never touches the cost accumulators, and only appends status-`treated`
patients to the ledger. -/
theorem treatFold_spec (params : GameParameters) (rooms : List Room) :
    ∀ acc : TreatAcc,
      revenueOf params ((rooms.foldl (treatRoom params) acc).completedPatients)
          + acc.additionalRevenue
        = revenueOf params acc.completedPatients
          + (rooms.foldl (treatRoom params) acc).additionalRevenue ∧
      (rooms.foldl (treatRoom params) acc).stats.riskEventCosts
        = acc.stats.riskEventCosts ∧
      (rooms.foldl (treatRoom params) acc).stats.waitingCosts
        = acc.stats.waitingCosts ∧
      ((rooms.foldl (treatRoom params) acc).completedPatients.all
          fun p => decide (p.status = PStatus.treated))
        = (acc.completedPatients.all fun p => decide (p.status = PStatus.treated)) := by
  induction rooms with
  | nil => intro acc; exact ⟨rfl, rfl, rfl, rfl⟩
  | cons room rooms ih =>
    intro acc
    rw [List.foldl_cons]
    obtain ⟨ih1, ih2, ih3, ih4⟩ := ih (treatRoom params acc room)
    obtain ⟨s1, s2, s3, s4⟩ := treatRoom_money params acc room
    refine ⟨by omega, ih2.trans s2, ih3.trans s3, ih4.trans s4⟩

/-- Every hourly operation preserves the conservation invariant. -/
theorem applyOp_conserving (params : GameParameters) (op : GameOp)
    (s : PlayerGameState) (h : Conserving params s) :
    Conserving params (applyOp params s op) := by
  obtain ⟨hsc, hrev, hall, hcost⟩ := h
  cases op with
  | arrivals hour baseId arr =>
    show Conserving params (processArrivals params hour baseId arr s)
    by_cases h1 : hour ≤ s.lastArrivalsHour
    · unfold processArrivals
      rw [if_pos h1]
      exact ⟨hsc, hrev, hall, hcost⟩
    · by_cases h2 : s.currentPhase = Phase.rolling ∨ s.currentPhase = Phase.treating
      · unfold processArrivals
        rw [if_neg h1, if_pos h2]
        exact ⟨hsc, hrev, hall, hcost⟩
      · have hmain : processArrivals params hour baseId arr s =
            { s with
              waitingRoom := (arrivalsAdmission params hour baseId arr s).queue
              totalCost := s.totalCost
                + (arrivalsAdmission params hour baseId arr s).stats.riskEventCosts
                - s.stats.riskEventCosts
              stats := (arrivalsAdmission params hour baseId arr s).stats
              currentPhase := Phase.sequencing
              hourComplete := false
              lastArrivalsHour := hour
              turnEvents :=
                { arrived := ⟨arr.A, arr.B, arr.C⟩
                  turnedAway :=
                    countsByType (arrivalsAdmission params hour baseId arr s).turnedAway
                  riskEvents := []
                  completed := []
                  waitingCosts := 0 } } := by
          unfold processArrivals
          rw [if_neg h1, if_neg h2]
        rw [hmain]
        obtain ⟨hWC, hRE, -⟩ := arrivalsAdmission_stats params hour baseId arr s
        refine ⟨hsc, hrev, hall, ?_⟩
        show s.totalCost
            + (arrivalsAdmission params hour baseId arr s).stats.riskEventCosts
            - s.stats.riskEventCosts
          = s.staffingCost
            + (arrivalsAdmission params hour baseId arr s).stats.riskEventCosts
            + (arrivalsAdmission params hour baseId arr s).stats.waitingCosts
        rw [hWC]
        omega
  | moveToRoom patientId roomId =>
    show Conserving params (movePatientToRoom params patientId roomId s)
    unfold movePatientToRoom
    dsimp only
    repeat' split
    all_goals exact ⟨hsc, hrev, hall, hcost⟩
  | moveBack patientId =>
    show Conserving params (movePatientBackToQueue params patientId s)
    unfold movePatientBackToQueue
    dsimp only
    repeat' split
    all_goals exact ⟨hsc, hrev, hall, hcost⟩
  | submitSequencing hour =>
    show Conserving params (completeSequencing hour s)
    unfold completeSequencing
    split
    · exact ⟨hsc, hrev, hall, hcost⟩
    · exact ⟨hsc, hrev, hall, hcost⟩
  | applyRisk hour results =>
    show Conserving params (applyRiskEventResults params hour results s)
    obtain ⟨r1, r2⟩ := riskFold_spec params results ⟨s.waitingRoom, s.stats, 0, []⟩
    dsimp only at r1 r2
    obtain ⟨u1, u2⟩ := updateMaxWaiting_fields (agedQueue params results s)
      { (riskPass params results s).stats with
        waitingCosts := (riskPass params results s).stats.waitingCosts
          + hourlyWaitingCostOf params (agedQueue params results s) }
    refine ⟨hsc, hrev, hall, ?_⟩
    show s.totalCost + (riskPass params results s).additionalCosts
        + hourlyWaitingCostOf params (agedQueue params results s)
      = s.staffingCost
        + (updateMaxWaiting
            { (riskPass params results s).stats with
              waitingCosts := (riskPass params results s).stats.waitingCosts
                + hourlyWaitingCostOf params (agedQueue params results s) }
            (agedQueue params results s)).riskEventCosts
        + (updateMaxWaiting
            { (riskPass params results s).stats with
              waitingCosts := (riskPass params results s).stats.waitingCosts
                + hourlyWaitingCostOf params (agedQueue params results s) }
            (agedQueue params results s)).waitingCosts
    rw [u1, u2]
    dsimp only
    have hfold : riskPass params results s
        = results.foldl (applyOneRisk params) ⟨s.waitingRoom, s.stats, 0, []⟩ := rfl
    rw [hfold]
    omega
  | treat riskEventsOverride =>
    show Conserving params (processTreatment params riskEventsOverride s)
    unfold processTreatment
    by_cases hg : s.lastArrivalsHour ≤ s.lastTreatmentHour
    · rw [if_pos hg]
      by_cases hc : s.currentPhase ≠ Phase.waiting ∨ s.hourComplete = false
      · rw [if_pos hc]
        exact ⟨hsc, hrev, hall, hcost⟩
      · rw [if_neg hc]
        exact ⟨hsc, hrev, hall, hcost⟩
    · rw [if_neg hg]
      have hTP : treatmentPass params s
          = s.rooms.foldl (treatRoom params) ⟨[], s.completedPatients, [], s.stats, 0⟩ := rfl
      obtain ⟨t1, t2, t3, t4⟩ := treatFold_spec params s.rooms
        ⟨[], s.completedPatients, [], s.stats, 0⟩
      dsimp only at t1 t2 t3 t4
      refine ⟨hsc, ?_, ?_, ?_⟩
      · show s.totalRevenue + (treatmentPass params s).additionalRevenue
          = revenueOf params (treatmentPass params s).completedPatients
        rw [hTP]
        omega
      · show ((treatmentPass params s).completedPatients.all
            fun p => decide (p.status = PStatus.treated)) = true
        rw [hTP, t4]
        exact hall
      · show s.totalCost
          = s.staffingCost + (treatmentPass params s).stats.riskEventCosts
            + (treatmentPass params s).stats.waitingCosts
        rw [hTP, t2, t3]
        exact hcost
  | finishTurn =>
    show Conserving params (completeTurn s)
    exact ⟨hsc, hrev, hall, hcost⟩

/-- C2: starting from the initial player state with staffing completed, any
sequence of hourly operations conserves money: total revenue is exactly the
summed per-type revenue of the ever-treated ledger (whose members all carry
status `treated`), and total cost is exactly the staffing cost plus the
accrued risk-event costs (turn-aways, cardiac arrests and LWBS) plus the
accrued hourly waiting costs — nothing double-counted, nothing dropped. -/
theorem turn_sequence_conservation (params : GameParameters) (ops : List GameOp) :
    Conserving params (runOps params (completeStaffing initPlayerGameState) ops) := by
  have hbase : Conserving params (completeStaffing initPlayerGameState) :=
    ⟨rfl, rfl, rfl, by decide⟩
  have hrun : ∀ (l : List GameOp) (t : PlayerGameState),
      Conserving params t → Conserving params (runOps params t l) := by
    intro l
    induction l with
    | nil => intro t h; exact h
    | cons op l ih =>
      intro t h
      exact ih (applyOp params t op) (applyOp_conserving params op t h)
  exact hrun ops (completeStaffing initPlayerGameState) hbase

/-- C2 (witness): the conservation theorem applied to a concrete one-hour
run (arrivals, sequencing submission, treatment, turn completion) under the
default parameters. -/
theorem turn_sequence_conservation_witness :
    Conserving defaultParams (runOps defaultParams (completeStaffing initPlayerGameState)
      [GameOp.arrivals 1 0 ⟨1, 1, 1⟩, GameOp.submitSequencing 1, GameOp.treat none,
       GameOp.finishTurn]) :=
  turn_sequence_conservation defaultParams
    [GameOp.arrivals 1 0 ⟨1, 1, 1⟩, GameOp.submitSequencing 1, GameOp.treat none,
     GameOp.finishTurn]

end Emergency
